import Mathlib

/-!
Verification development for the watchtower-api repository.

Shallow embedding of:
* `src/durable-objects/GameRoom.ts` (the variant with `playerStates` /
  `gameState`, i.e. the room actor with state sync and host migration);
* `src/middleware/auth.ts` (`authMiddleware`);
* `src/routes/stats.ts` (`POST /v1/stats/track` handler);
* `src/routes/rooms.ts` (status mapping of the create route).

Conventions of the embedding:
* Opaque JSON payloads (`data.state`, `data.data`, `gameState` values …) are
  never inspected by the source; they are modelled as abstract tokens of type
  `JsonVal` (a string).  The empty object `\x7b\x7d` a fresh room starts with
  is the token `""`.
* A JS `Record<string, T>` preserves insertion order; it is modelled as an
  association list in insertion order (`recPut` updates in place, appends
  fresh keys; `delete` is a filter).
* Timestamps (`Date.now()`) are `Nat` parameters supplied by the caller.
-/

namespace Watchtower

/-- Opaque JSON payload, handled verbatim by the source code. -/
abbrev JsonVal := String

/-- Embeds `interface Player` of GameRoom.ts. -/
structure Player where
  id : String
  joinedAt : Nat
deriving DecidableEq, Repr

/-- Embeds `interface RoomState` of GameRoom.ts.  `players` is the roster record in
insertion order. -/
structure RoomState where
  gameId : String
  hostId : String
  createdAt : Nat
  players : List Player
  playerStates : List (String × JsonVal)
  gameState : JsonVal
deriving DecidableEq, Repr

/-- One accepted WebSocket, tagged with its playerId
(`acceptWebSocket(server, [playerId])`). -/
structure Socket where
  sid : Nat
  tag : String
deriving DecidableEq, Repr

/-- A server-initiated close (`ws.close(code, reason)`).  The GameRoom source
never invokes `close` on an accepted socket, so no handler below ever appends
to this list; the field exists so that the absence of such closes is part of
the model's observable behaviour. -/
structure CloseFrame where
  sid : Nat
  code : Nat
  reason : String
deriving DecidableEq, Repr

/-- The state of one GameRoom durable-object instance: the in-memory
`roomState`, the durable `storage.get("roomState")` snapshot, the set of
accepted (open) sockets, the closes the server has issued, the next fresh
socket id, the `playerStateDirty` flag and whether the broadcast interval
timer is running. -/
structure Actor where
  roomState : Option RoomState
  storage : Option RoomState
  sockets : List Socket
  serverCloses : List CloseFrame
  nextSid : Nat
  playerStateDirty : Bool
  timerOn : Bool
deriving DecidableEq, Repr

/-- A freshly constructed actor with empty durable storage
(constructor + `blockConcurrencyWhile` restore finding nothing, broadcast
interval started). -/
def initActor : Actor :=
  { roomState := none, storage := none, sockets := [], serverCloses := []
    nextSid := 0, playerStateDirty := false, timerOn := true }

/-- Server → client frames (`this.broadcast` / `ws.send` payloads). -/
inductive Msg where
  | connected (playerId : String) (hostId : String) (players : List Player)
      (playerStates : List (String × JsonVal)) (gameState : JsonVal)
  | playerJoined (playerId : String) (playerCount : Nat)
  | playerLeft (playerId : String) (playerCount : Nat)
  | hostChanged (hostId : String)
  | playerStateUpdate (playerId : String) (st : JsonVal)
  | gameStateSync (st : JsonVal)
  | relayed (sender : String) (data : JsonVal)
  | pong (timestamp : Nat)
  | playersSync (players : List (String × JsonVal))
deriving DecidableEq, Repr

/-- Where a frame goes: directly to one socket (`ws.send`), through
`this.broadcast(msg, excludePlayerId?)`, or through `this.sendTo(playerId)`. -/
inductive Target where
  | direct (sid : Nat)
  | broadcastExcept (exclude : Option String)
  | toPlayer (playerId : String)
deriving DecidableEq, Repr

/-- One emission performed by a handler, in program order. -/
structure Emit where
  target : Target
  msg : Msg
deriving DecidableEq, Repr

/-- Parsed client → server messages (`data.type` dispatch).  `transferHost`
and `sendReq` carry `Option String` because `data.newHostId` / `data.to` may
be absent (JS `undefined`, falsy).  `unknown` covers every other `type`
(the switch of this GameRoom variant has no default case). -/
inductive ClientMsg where
  | playerState (st : JsonVal)
  | gameStateMsg (st : JsonVal)
  | transferHost (newHostId : Option String)
  | broadcastReq (data : JsonVal) (excludeSelf : Bool)
  | sendReq (dest : Option String) (data : JsonVal)
  | ping
  | unknown
deriving DecidableEq, Repr

/-- Keys of a record modelled as an association list. -/
def recKeys {α : Type} (l : List (String × α)) : List String := l.map (·.1)

/-- JS `rec[k] = v`: update in place if the key exists, else append. -/
def recPut {α : Type} (l : List (String × α)) (k : String) (v : α) :
    List (String × α) :=
  if l.any (·.1 == k) then l.map (fun e => if e.1 == k then (k, v) else e)
  else l ++ [(k, v)]

/-- JS `delete rec[k]`. -/
def recDel {α : Type} (l : List (String × α)) (k : String) :
    List (String × α) :=
  l.filter (fun e => e.1 ≠ k)

/-- Roster membership test (`!!players[pid]`, i.e. a key lookup in the
players record). -/
def hasPlayer (ps : List Player) (pid : String) : Bool := ps.any (·.id == pid)

/-- The roster's player ids. -/
def playerIds (ps : List Player) : List String := ps.map (·.id)

/-- JS `delete players[pid]`. -/
def removePlayer (ps : List Player) (pid : String) : List Player :=
  ps.filter (fun p => p.id ≠ pid)

/-- Models `players.sort((a, b) => a.joinedAt - b.joinedAt)` followed by
`[0]`:
JS `Array.prototype.sort` is stable, so the head of the sorted array is the
first element, in roster insertion order, whose `joinedAt` is minimal.  The
fold below keeps the leftmost element among ties (a later element replaces
the current pick only when its `joinedAt` is strictly smaller). -/
def minJoin : List Player → Option Player
  | [] => none
  | p :: rest =>
    match minJoin rest with
    | none => some p
    | some q => if q.joinedAt < p.joinedAt then some q else some p

/-- Embeds `GameRoom.handleCreate`: `400` with `success:false` when a room already
exists, else initialize the room (creator is host) and persist.  Both
`createdAt` and the host's `joinedAt` are `Date.now()` of this request. -/
def handleCreate (a : Actor) (gameId hostId : String) (now : Nat) :
    Actor × Nat :=
  match a.roomState with
  | some _ => (a, 400)
  | none =>
    let r : RoomState :=
      { gameId := gameId, hostId := hostId, createdAt := now
        players := [⟨hostId, now⟩], playerStates := [], gameState := "" }
    ({ a with roomState := some r, storage := some r }, 200)

/-- Embeds the create route of rooms.ts, which maps a non-`success` durable-object reply to a
`500 Failed to create room`; the DO replies `success:true` exactly when its
status is 200. -/
def routeCreateStatus (a : Actor) (gameId hostId : String) (now : Nat) : Nat :=
  if (handleCreate a gameId hostId now).2 = 200 then 200 else 500

/-- Embeds `GameRoom.handleJoin`: add the player to the roster if absent, persist
and broadcast `player_joined` to the others only when newly added. -/
def handleJoin (a : Actor) (playerId : String) (now : Nat) :
    Actor × Nat × List Emit :=
  match a.roomState with
  | none => (a, 404, [])
  | some r =>
    if hasPlayer r.players playerId then (a, 200, [])
    else
      let r' := { r with players := r.players ++ [⟨playerId, now⟩] }
      ({ a with roomState := some r', storage := some r' }, 200,
        [⟨.broadcastExcept (some playerId),
          .playerJoined playerId r'.players.length⟩])

/-- Embeds `GameRoom.handleWebSocket`: `404` when no room, `400` when the
`playerId` query parameter is missing/empty, else accept a new tagged socket,
add the player to the roster if absent (persisting), send the `connected`
late-joiner snapshot to the new socket and broadcast `player_joined` to the
others.  No existing socket of the same player is touched. -/
def handleWebSocket (a : Actor) (playerId : String) (now : Nat) :
    Actor × Nat × List Emit :=
  match a.roomState with
  | none => (a, 404, [])
  | some r =>
    if playerId = "" then (a, 400, [])
    else
      let sid := a.nextSid
      let a1 := { a with sockets := a.sockets ++ [⟨sid, playerId⟩]
                         nextSid := a.nextSid + 1 }
      let r' := if hasPlayer r.players playerId then r
                else { r with players := r.players ++ [⟨playerId, now⟩] }
      let a2 := if hasPlayer r.players playerId then a1
                else { a1 with roomState := some r', storage := some r' }
      (a2, 101,
        [⟨.direct sid,
          .connected playerId r'.hostId r'.players r'.playerStates r'.gameState⟩,
         ⟨.broadcastExcept (some playerId),
          .playerJoined playerId r'.players.length⟩])

/-- The playerId tag of an accepted socket (`this.state.getTags(ws)[0]`),
`none` when `sid` is not an open accepted socket. -/
def getTag (a : Actor) (sid : Nat) : Option String :=
  (a.sockets.find? (·.sid == sid)).map (·.tag)

/-- Embeds `GameRoom.webSocketMessage`.  The guard `if (!playerId || !this.roomState)
return` drops the message when the tag is missing/empty or no room is live.
`player_state` mutates in-memory state and sets the dirty flag but does NOT
persist; `game_state` and `transfer_host` are host-gated and persist. -/
def webSocketMessage (a : Actor) (sid : Nat) (m : ClientMsg) (now : Nat) :
    Actor × List Emit :=
  match getTag a sid with
  | none => (a, [])
  | some playerId =>
    if playerId = "" then (a, [])
    else
      match a.roomState with
      | none => (a, [])
      | some r =>
        match m with
        | .playerState st =>
          let r' := { r with playerStates := recPut r.playerStates playerId st }
          ({ a with roomState := some r', playerStateDirty := true },
            [⟨.broadcastExcept (some playerId),
              .playerStateUpdate playerId st⟩])
        | .gameStateMsg st =>
          if playerId = r.hostId then
            let r' := { r with gameState := st }
            ({ a with roomState := some r', storage := some r' },
              [⟨.broadcastExcept none, .gameStateSync st⟩])
          else (a, [])
        | .transferHost newHostId =>
          match newHostId with
          | none => (a, [])
          | some nh =>
            if playerId = r.hostId ∧ nh ≠ "" ∧ hasPlayer r.players nh then
              let r' := { r with hostId := nh }
              ({ a with roomState := some r', storage := some r' },
                [⟨.broadcastExcept none, .hostChanged nh⟩])
            else (a, [])
        | .broadcastReq data excludeSelf =>
          (a, [⟨.broadcastExcept (if excludeSelf then some playerId else none),
               .relayed playerId data⟩])
        | .sendReq dest data =>
          match dest with
          | none => (a, [])
          | some t =>
            if t = "" then (a, [])
            else (a, [⟨.toPlayer t, .relayed playerId data⟩])
        | .ping => (a, [⟨.direct sid, .pong now⟩])
        | .unknown => (a, [])

/-- Embeds `GameRoom.webSocketClose`.  The platform removes the closing socket from
the accepted set; the handler then removes the player from roster and
`playerStates`; if the roster emptied it stops the timer, runs
`storage.deleteAll()` and nulls the room; otherwise, if the closer was host,
it promotes the earliest-joined remaining player and broadcasts
`host_changed`, then persists and broadcasts `player_left`. -/
def webSocketClose (a : Actor) (sid : Nat) : Actor × List Emit :=
  match getTag a sid with
  | none => (a, [])
  | some playerId =>
    let a0 := { a with sockets := a.sockets.filter (fun s => s.sid ≠ sid) }
    if playerId = "" then (a0, [])
    else
      match a0.roomState with
      | none => (a0, [])
      | some r =>
        let wasHost := playerId = r.hostId
        let players' := removePlayer r.players playerId
        let pstates' := recDel r.playerStates playerId
        if players'.length = 0 then
          ({ a0 with roomState := none, storage := none, timerOn := false }, [])
        else
          let pick := if wasHost then minJoin players' else none
          match pick with
          | some q =>
            let r' := { r with hostId := q.id, players := players'
                               playerStates := pstates' }
            ({ a0 with roomState := some r', storage := some r' },
              [⟨.broadcastExcept none, .hostChanged q.id⟩,
               ⟨.broadcastExcept none, .playerLeft playerId players'.length⟩])
          | none =>
            let r' := { r with players := players', playerStates := pstates' }
            ({ a0 with roomState := some r', storage := some r' },
              [⟨.broadcastExcept none, .playerLeft playerId players'.length⟩])

/-- The 50 ms interval callback: when dirty and a room is live, broadcast
`players_sync` with the whole `playerStates` map and clear the flag. -/
def tickBroadcast (a : Actor) : Actor × List Emit :=
  if a.timerOn then
    if a.playerStateDirty then
      match a.roomState with
      | some r =>
        ({ a with playerStateDirty := false },
          [⟨.broadcastExcept none, .playersSync r.playerStates⟩])
      | none => (a, [])
    else (a, [])
  else (a, [])

/-- Cold boot after hibernation: the constructor restores `roomState` from
storage (defaulting `playerStates` / `gameState` when absent — in this model
snapshots always carry them), resets the in-memory dirty flag and starts the
broadcast interval.  The hibernation API keeps accepted sockets alive. -/
def bootActor (a : Actor) : Actor :=
  { a with roomState := a.storage, playerStateDirty := false, timerOn := true }

/-- The operations the platform can deliver to one room actor, serialized. -/
inductive Op where
  | create (gameId hostId : String) (now : Nat)
  | join (playerId : String) (now : Nat)
  | wsOpen (playerId : String) (now : Nat)
  | msg (sid : Nat) (m : ClientMsg) (now : Nat)
  | close (sid : Nat)
  | tick
  | boot
deriving DecidableEq, Repr

/-- State transition of one operation (outputs dropped). -/
def applyOp (a : Actor) : Op → Actor
  | .create g h now => (handleCreate a g h now).1
  | .join p now => (handleJoin a p now).1
  | .wsOpen p now => (handleWebSocket a p now).1
  | .msg sid m now => (webSocketMessage a sid m now).1
  | .close sid => (webSocketClose a sid).1
  | .tick => (tickBroadcast a).1
  | .boot => bootActor a

/-- Run a sequence of operations from a fresh actor. -/
def run (ops : List Op) : Actor := ops.foldl applyOp initActor

/-- Lexicographic strict order on character lists (by code point). -/
def lexLt : List Char → List Char → Bool
  | [], [] => false
  | [], _ :: _ => true
  | _ :: _, [] => false
  | c :: cs, d :: ds =>
    if c.toNat < d.toNat then true
    else if d.toNat < c.toNat then false
    else lexLt cs ds

/-- Lexicographic strict order on strings (the usual string order). -/
def strLexLt (x y : String) : Bool := lexLt x.data y.data

/-- Decides whether the first list is a leading segment of the second. -/
def listPre : List Char → List Char → Bool
  | [], _ => true
  | _ :: _, [] => false
  | c :: cs, d :: ds => c == d && listPre cs ds

/-- JS `s.startsWith(pre)`, over the character-list representation. -/
def strStartsWith (s pre : String) : Bool := listPre pre.data s.data

/-- JS `s.slice(n)` for ASCII inputs, over the character-list
representation. -/
def strDrop (s : String) (n : Nat) : String := ⟨s.data.drop n⟩

/-- Defined from the SPEC's words (§4.6 step 4 / §9 host-migration note), for
comparison with the source's `minJoin`: the remaining player with the
smallest `joinedAt`, ties broken by lexicographic order on `playerId`. -/
def specLexHost : List Player → Option Player
  | [] => none
  | p :: rest =>
    match specLexHost rest with
    | none => some p
    | some q =>
      if q.joinedAt < p.joinedAt ∨
          (q.joinedAt = p.joinedAt ∧ strLexLt q.id p.id) then some q
      else some p

/-! ## Auth Gate — `src/middleware/auth.ts` -/

/-- Embeds `interface ApiKeyData` of auth.ts. -/
structure ApiKeyData where
  gameId : String
  projectId : String
  createdAt : Nat
deriving DecidableEq, Repr

/-- The pieces of the request `authMiddleware` inspects.  `none` is an
absent header / query parameter (JS `undefined`). -/
structure AuthReq where
  authHeader : Option String
  queryApiKey : Option String
  headerPlayerId : Option String
  queryPlayerId : Option String
deriving DecidableEq, Repr

/-- JS truthiness of a possibly-absent string: `undefined` and `""` are
falsy. -/
def jsTruthy : Option String → Bool
  | none => false
  | some s => !(s == "")

/-- JS `x || y` on possibly-absent strings. -/
def jsOr (x y : Option String) : Option String := if jsTruthy x then x else y

/-- Models the playerId extraction: the X-Player-ID header, else the
playerId query parameter (JS `||`). -/
def extractPid (req : AuthReq) : Option String :=
  jsOr req.headerPlayerId req.queryPlayerId

/-- The apiKey extraction: `Bearer `-prefixed Authorization header wins,
otherwise the `apiKey` query parameter. -/
def extractKey (req : AuthReq) : Option String :=
  match req.authHeader with
  | some h =>
    if strStartsWith h "Bearer " then some (strDrop h 7) else req.queryApiKey
  | none => req.queryApiKey

/-- Outcome of the middleware: an error response, or the context bindings
`{gameId, projectId, playerId, apiKey}` set for downstream handlers. -/
inductive AuthResult where
  | errResp (status : Nat) (msg : String)
  | okResp (gameId projectId playerId apiKey : String)
deriving DecidableEq, Repr

/-- Embeds `authMiddleware` of auth.ts, with the Key Registry lookup
(a KV read under the apikey: prefix) abstracted as the function `reg`. -/
def authMiddleware (reg : String → Option ApiKeyData) (req : AuthReq) :
    AuthResult :=
  let playerId := extractPid req
  if ¬ jsTruthy playerId then .errResp 400 "X-Player-ID header required"
  else
    let apiKey := extractKey req
    if ¬ jsTruthy apiKey then
      .errResp 401 "Authorization header or apiKey query param required"
    else
      let key := apiKey.getD ""
      if ¬ strStartsWith key "wt_" then .errResp 401 "Invalid API key format"
      else
        match reg key with
        | none => .errResp 401 "Invalid API key"
        | some d => .okResp d.gameId d.projectId (playerId.getD "") key

/-! ## Stats Accumulator — `src/routes/stats.ts`, `POST /v1/stats/track` -/

/-- The per-game counter record `stats:<gameId>`.  Counters are JSON numbers;
they are modelled as `Int` so that the `Math.max(0, · - 1)` clamping is
explicit.  The default is `{online:0, today:0, monthly:0, total:0, rooms:0,
inRooms:0}` (the `updatedAt` field is always overwritten before a write). -/
structure StatsRec where
  online : Int
  today : Int
  monthly : Int
  total : Int
  rooms : Int
  inRooms : Int
  updatedAt : Nat
deriving DecidableEq, Repr

/-- The default record `stored || ...` falls back to (all counters 0). -/
def defaultStats : StatsRec :=
  { online := 0, today := 0, monthly := 0, total := 0, rooms := 0
    inRooms := 0, updatedAt := 0 }

/-- The per-player record `stats:<gameId>:player:<playerId>`. -/
structure PlayerRec where
  firstSeen : String
  lastSeen : String
  sessions : Nat
deriving DecidableEq, Repr

/-- The timestamps one `/track` request derives from `Date` /
`new Date().toISOString()`. -/
structure TrackTime where
  dateKey : String
  monthKey : String
  isoNow : String
  nowMs : Nat
deriving DecidableEq, Repr

/-- The slice of the KV namespace one game's stats live in: the counter
record, the daily and monthly unique-player arrays (keyed by date stamp) and
the per-player records (keyed by playerId). -/
structure StatsStore where
  statsRec : Option StatsRec
  daily : List (String × List String)
  monthly : List (String × List String)
  playerRecs : List (String × PlayerRec)
deriving DecidableEq, Repr

/-- A game with no stats written yet. -/
def emptyStore : StatsStore :=
  { statsRec := none, daily := [], monthly := [], playerRecs := [] }

/-- KV `get` on an association list. -/
def lookupList {α : Type} (m : List (String × α)) (k : String) : Option α :=
  (m.find? (·.1 == k)).map (·.2)

/-- The `POST /v1/stats/track` handler body for one game, processing one
event sequentially: read current stats / daily / monthly / player record,
apply the event's switch case, then unconditionally stamp `updatedAt` and
write the counter record back.  Returns the new store and the handler's
`success` flag (always `true`). -/
def trackEvent (st : StatsStore) (playerId event : String) (t : TrackTime) :
    StatsStore × Bool :=
  let stats := st.statsRec.getD defaultStats
  let dailyPlayers := (lookupList st.daily t.dateKey).getD []
  let monthlyPlayers := (lookupList st.monthly t.monthKey).getD []
  let isNewToday := !(dailyPlayers.contains playerId)
  let isNewThisMonth := !(monthlyPlayers.contains playerId)
  let playerData := lookupList st.playerRecs playerId
  let isNewPlayer := playerData.isNone
  let (stats1, st1) :=
    if event == "session_start" then
      let statsA := { stats with online := stats.online + 1 }
      let (statsB, stB) :=
        if isNewToday then
          let dp := dailyPlayers ++ [playerId]
          ({ statsA with today := (dp.length : Int) },
           { st with daily := recPut st.daily t.dateKey dp })
        else (statsA, st)
      let (statsC, stC) :=
        if isNewThisMonth then
          let mp := monthlyPlayers ++ [playerId]
          ({ statsB with monthly := (mp.length : Int) },
           { stB with monthly := recPut stB.monthly t.monthKey mp })
        else (statsB, stB)
      let statsD :=
        if isNewPlayer then { statsC with total := statsC.total + 1 } else statsC
      let prec : PlayerRec :=
        { firstSeen := (playerData.map (·.firstSeen)).getD t.isoNow
          lastSeen := t.isoNow
          sessions := (playerData.map (·.sessions)).getD 0 + 1 }
      (statsD, { stC with playerRecs := recPut stC.playerRecs playerId prec })
    else if event == "session_end" then
      ({ stats with online := max 0 (stats.online - 1) }, st)
    else if event == "room_join" then
      ({ stats with inRooms := stats.inRooms + 1 }, st)
    else if event == "room_leave" then
      ({ stats with inRooms := max 0 (stats.inRooms - 1) }, st)
    else if event == "room_create" then
      ({ stats with rooms := stats.rooms + 1 }, st)
    else if event == "room_close" then
      ({ stats with rooms := max 0 (stats.rooms - 1) }, st)
    else (stats, st)
  ({ st1 with statsRec := some { stats1 with updatedAt := t.nowMs } }, true)

/-- One tracked event: who, which event, and the request's timestamps. -/
structure TrackEv where
  playerId : String
  event : String
  time : TrackTime
deriving DecidableEq, Repr

/-- Sequential processing of a list of events for one game. -/
def runTrack (st : StatsStore) (evs : List TrackEv) : StatsStore :=
  evs.foldl (fun s e => (trackEvent s e.playerId e.event e.time).1) st

/-- The `online` counter a reader would see (`GET /v1/stats` defaults absent
fields to 0). -/
def onlineOf (st : StatsStore) : Int := (st.statsRec.getD defaultStats).online

/-- Number of `session_start` events in a list. -/
def countStarts (evs : List TrackEv) : Int :=
  ((evs.filter (fun e => e.event == "session_start")).length : Int)

/-- Number of `session_end` events in a list. -/
def countEnds (evs : List TrackEv) : Int :=
  ((evs.filter (fun e => e.event == "session_end")).length : Int)

/-- Room invariant (i): the host is a roster member. -/
def hostInRoster (r : RoomState) : Prop := r.hostId ∈ playerIds r.players

/-- Room invariant (ii), decidably: every `playerStates` key is a roster
member. -/
def statesSubRoster (r : RoomState) : Bool :=
  (recKeys r.playerStates).all (fun k => (playerIds r.players).contains k)

/-- What host migration on close does, stated spec-side: closing `p`'s
session in room `r` removes `p` from roster and `playerStates`, promotes a
remaining player `q` whose `joinedAt` is minimal — the FIRST such player in
roster insertion order — and broadcasts `host_changed` strictly before
`player_left`. -/
def closePromotion (a : Actor) (sid : Nat) (p : String) (r : RoomState) :
    Prop :=
  ∃ q : Player,
    (webSocketClose a sid).1.roomState = some
      { r with hostId := q.id, players := removePlayer r.players p
               playerStates := recDel r.playerStates p } ∧
    (webSocketClose a sid).2 =
      [⟨.broadcastExcept none, .hostChanged q.id⟩,
       ⟨.broadcastExcept none,
        .playerLeft p (removePlayer r.players p).length⟩] ∧
    q ∈ removePlayer r.players p ∧
    (∀ x ∈ removePlayer r.players p, q.joinedAt ≤ x.joinedAt) ∧
    (∃ l1 l2, removePlayer r.players p = l1 ++ q :: l2 ∧
      ∀ x ∈ l1, q.joinedAt < x.joinedAt)

/-- Inductive invariant for C4: the host of every live room — in memory or in
the stored snapshot — is a roster member. -/
def hostInvariant (a : Actor) : Prop :=
  (∀ r, a.roomState = some r → hostInRoster r) ∧
  (∀ r, a.storage = some r → hostInRoster r)

/-- Inductive invariant for C5: whenever a room is live in memory, a stored
snapshot exists and agrees with it on everything except possibly
`playerStates` (whose `player_state` updates are not persisted). -/
def snapAgrees (a : Actor) : Prop :=
  ∀ r, a.roomState = some r → ∃ s, a.storage = some s ∧
    s.gameId = r.gameId ∧ s.hostId = r.hostId ∧ s.createdAt = r.createdAt ∧
    s.players = r.players ∧ s.gameState = r.gameState

/-! ## Helper lemmas -/

theorem minJoin_eq_none {ps : List Player} (h : minJoin ps = none) : ps = [] := by
  cases ps with
  | nil => rfl
  | cons p rest =>
    rw [minJoin] at h
    cases hrec : minJoin rest with
    | none => rw [hrec] at h; simp at h
    | some q' => rw [hrec] at h; simp only at h; split at h <;> simp at h

theorem minJoin_mem : ∀ {ps : List Player} {q : Player},
    minJoin ps = some q → q ∈ ps := by
  intro ps
  induction ps with
  | nil => intro q h; simp [minJoin] at h
  | cons p rest ih =>
    intro q h
    rw [minJoin] at h
    cases hrec : minJoin rest with
    | none =>
      rw [hrec] at h
      simp only at h
      simp only [Option.some.injEq] at h
      subst h
      exact List.mem_cons_self _ _
    | some q' =>
      rw [hrec] at h
      simp only at h
      by_cases hlt : q'.joinedAt < p.joinedAt
      · rw [if_pos hlt] at h
        simp only [Option.some.injEq] at h
        subst h
        exact List.mem_cons_of_mem _ (ih hrec)
      · rw [if_neg hlt] at h
        simp only [Option.some.injEq] at h
        subst h
        exact List.mem_cons_self _ _

theorem minJoin_le : ∀ {ps : List Player} {q : Player},
    minJoin ps = some q → ∀ x ∈ ps, q.joinedAt ≤ x.joinedAt := by
  intro ps
  induction ps with
  | nil => intro q h; simp [minJoin] at h
  | cons p rest ih =>
    intro q h x hx
    rw [minJoin] at h
    cases hrec : minJoin rest with
    | none =>
      rw [hrec] at h
      simp only at h
      simp only [Option.some.injEq] at h
      subst h
      have : rest = [] := minJoin_eq_none hrec
      subst this
      simp at hx
      subst hx
      exact le_refl _
    | some q' =>
      rw [hrec] at h
      simp only at h
      rcases List.mem_cons.1 hx with hxp | hxrest
      · by_cases hlt : q'.joinedAt < p.joinedAt
        · rw [if_pos hlt] at h
          simp only [Option.some.injEq] at h
          subst h
          rw [hxp]
          exact le_of_lt hlt
        · rw [if_neg hlt] at h
          simp only [Option.some.injEq] at h
          subst h
          rw [hxp]
      · by_cases hlt : q'.joinedAt < p.joinedAt
        · rw [if_pos hlt] at h
          simp only [Option.some.injEq] at h
          subst h
          exact ih hrec x hxrest
        · rw [if_neg hlt] at h
          simp only [Option.some.injEq] at h
          subst h
          exact le_trans (not_lt.1 hlt) (ih hrec x hxrest)

theorem minJoin_split : ∀ {ps : List Player} {q : Player},
    minJoin ps = some q →
    ∃ l1 l2, ps = l1 ++ q :: l2 ∧ ∀ x ∈ l1, q.joinedAt < x.joinedAt := by
  intro ps
  induction ps with
  | nil => intro q h; simp [minJoin] at h
  | cons p rest ih =>
    intro q h
    rw [minJoin] at h
    cases hrec : minJoin rest with
    | none =>
      rw [hrec] at h
      simp only at h
      simp only [Option.some.injEq] at h
      subst h
      exact ⟨[], rest, rfl, by simp⟩
    | some q' =>
      rw [hrec] at h
      simp only at h
      by_cases hlt : q'.joinedAt < p.joinedAt
      · rw [if_pos hlt] at h
        simp only [Option.some.injEq] at h
        subst h
        obtain ⟨l1, l2, heq, hgt⟩ := ih hrec
        refine ⟨p :: l1, l2, by rw [heq]; rfl, ?_⟩
        intro x hx
        rcases List.mem_cons.1 hx with hxp | hxl
        · subst hxp; exact hlt
        · exact hgt x hxl
      · rw [if_neg hlt] at h
        simp only [Option.some.injEq] at h
        subst h
        exact ⟨[], rest, rfl, by simp⟩

/-! ## Claims -/

/-- C1: the claim says a second WebSocket admission for an already-connected
playerId closes the prior socket with code 1000 / reason "replaced" before
accepting the new one, leaving exactly one open session per (room, playerId).
The source's `handleWebSocket` never touches existing sockets: after
admitting "d" twice, BOTH sockets are open and accepted (tagged "d"), the
server issued no close at all, and the second upgrade still succeeded with
status 101. -/
theorem duplicate_admission_no_replacement :
    (run [.create "g" "a" 0, .wsOpen "d" 1, .wsOpen "d" 2]).sockets =
      [⟨0, "d"⟩, ⟨1, "d"⟩] ∧
    ((run [.create "g" "a" 0, .wsOpen "d" 1, .wsOpen "d" 2]).sockets.filter
      (fun s => s.tag == "d")).length = 2 ∧
    (run [.create "g" "a" 0, .wsOpen "d" 1, .wsOpen "d" 2]).serverCloses = [] ∧
    (handleWebSocket (run [.create "g" "a" 0, .wsOpen "d" 1]) "d" 2).2.1 = 101
    := by decide

/-- C3: the claim says every `playerStates` key is a roster key in every
reachable state.  Failing trace: "d" is admitted twice (no replacement, see
C1), one of "d"'s sockets closes — removing "d" from the roster — and then
"d" sends `player_state` on its surviving socket.  The resulting live room
has `playerStates` key "d" but roster `["a"]`. -/
theorem playerStates_key_not_in_roster :
    ((run [.create "g" "a" 0, .wsOpen "d" 1, .wsOpen "d" 2, .close 0,
           .msg 1 (.playerState "s") 3]).roomState.map statesSubRoster)
      = some false ∧
    ((run [.create "g" "a" 0, .wsOpen "d" 1, .wsOpen "d" 2, .close 0,
           .msg 1 (.playerState "s") 3]).roomState.map
        (fun r => (recKeys r.playerStates, playerIds r.players)))
      = some (["d"], ["a"]) := by decide

/-- C2 counterexample: the claim says `joinedAt` ties are broken by
lexicographic `playerId`.  In a room where "b" joined before "a" with the
same `joinedAt` (5), closing the host's socket promotes "b" (roster
insertion order — JS stable sort), while the claimed lexicographic tie-break
(`specLexHost`, written from the spec) would promote "a". -/
theorem host_migration_tiebreak_cx :
    ((run [.create "g" "h" 0, .wsOpen "h" 0, .wsOpen "b" 5, .wsOpen "a" 5,
           .close 0]).roomState.map (·.hostId)) = some "b" ∧
    ((run [.create "g" "h" 0, .wsOpen "h" 0, .wsOpen "b" 5, .wsOpen "a" 5,
           .close 0]).roomState.map (·.players))
      = some [⟨"b", 5⟩, ⟨"a", 5⟩] ∧
    (specLexHost [⟨"b", 5⟩, ⟨"a", 5⟩]).map (·.id) = some "a" ∧
    ("b" : String) ≠ "a" := by decide

/-- C2 (amended): when the closing player was host and the remaining roster
is non-empty, the close handler promotes the remaining player with the
smallest `joinedAt`, ties broken by roster insertion order (JS stable sort),
and broadcasts `host_changed` strictly before `player_left`. -/
theorem host_migration_insertion_order (a : Actor) (sid : Nat) (p : String)
    (r : RoomState)
    (htag : getTag a sid = some p) (hp : p ≠ "")
    (hroom : a.roomState = some r) (hhost : r.hostId = p)
    (hrem : removePlayer r.players p ≠ []) :
    closePromotion a sid p r := by
  have hlen : ¬ (removePlayer r.players p).length = 0 := by
    simpa [List.length_eq_zero] using hrem
  have hq : ∃ q, minJoin (removePlayer r.players p) = some q := by
    cases hmj : minJoin (removePlayer r.players p) with
    | none => exact absurd (minJoin_eq_none hmj) hrem
    | some q => exact ⟨q, rfl⟩
  obtain ⟨q, hmj⟩ := hq
  refine ⟨q, ?_, ?_, minJoin_mem hmj, minJoin_le hmj, minJoin_split hmj⟩ <;>
    simp [webSocketClose, htag, hroom, hp, hlen, hhost, hmj]

/-- Witness for the amended C2 at a concrete input: host "h" closes in a
roster `[h@0, b@5, a@5]`; "b" is promoted. -/
theorem host_migration_insertion_order_witness :
    closePromotion
      (run [.create "g" "h" 0, .wsOpen "h" 0, .wsOpen "b" 5, .wsOpen "a" 5])
      0 "h" ⟨"g", "h", 0, [⟨"h", 0⟩, ⟨"b", 5⟩, ⟨"a", 5⟩], [], ""⟩ :=
  host_migration_insertion_order _ 0 "h" _
    (by decide) (by decide) (by decide) (by decide) (by decide)

/-- C6: a `game_state` or `transfer_host` message from a sender who is not
the current host leaves the whole actor — in-memory room, stored snapshot,
sockets, flags — unchanged and emits no frame. -/
theorem nonhost_messages_silent (a : Actor) (sid : Nat) (p : String)
    (r : RoomState) (st : JsonVal) (nh : Option String) (now : Nat)
    (htag : getTag a sid = some p) (hroom : a.roomState = some r)
    (hne : p ≠ r.hostId) :
    webSocketMessage a sid (.gameStateMsg st) now = (a, []) ∧
    webSocketMessage a sid (.transferHost nh) now = (a, []) := by
  by_cases hpe : p = ""
  · constructor <;> simp [webSocketMessage, htag, hpe]
  · refine ⟨?_, ?_⟩
    · simp [webSocketMessage, htag, hroom, hpe, hne]
    · cases nh with
      | none => simp [webSocketMessage, htag, hroom, hpe]
      | some v => simp [webSocketMessage, htag, hroom, hpe, hne]

/-- Witness for C6: non-host "z" sends `game_state` and `transfer_host` in a
room hosted by "a"; nothing changes and nothing is sent. -/
theorem nonhost_messages_silent_witness :
    webSocketMessage (run [.create "g" "a" 0, .wsOpen "z" 1]) 0
        (.gameStateMsg "x") 5
      = (run [.create "g" "a" 0, .wsOpen "z" 1], []) ∧
    webSocketMessage (run [.create "g" "a" 0, .wsOpen "z" 1]) 0
        (.transferHost (some "z")) 5
      = (run [.create "g" "a" 0, .wsOpen "z" 1], []) :=
  nonhost_messages_silent _ 0 "z" ⟨"g", "a", 0, [⟨"a", 0⟩, ⟨"z", 1⟩], [], ""⟩
    "x" (some "z") 5 (by decide) (by decide) (by decide)

/-- C7 counterexample: the claim says `create` on an already-initialized
actor fails with status 409.  The durable object replies 400 (`success:
false`), which the public route surfaces as 500 — neither is 409. -/
theorem create_conflict_status_cx :
    (handleCreate (run [.create "g" "a" 0]) "g2" "b" 5).2 = 400 ∧
    routeCreateStatus (run [.create "g" "a" 0]) "g2" "b" 5 = 500 ∧
    (handleCreate (run [.create "g" "a" 0]) "g2" "b" 5).1
      = run [.create "g" "a" 0] ∧
    (400 : Nat) ≠ 409 ∧ (500 : Nat) ≠ 409 := by decide

/-- C7 (amended): `create` on an actor that already holds a live room leaves
the actor (room state and storage) entirely unchanged; the durable object
replies status 400 ("Room already exists") and the `POST /v1/rooms` route
surfaces the failure as 500. -/
theorem create_conflict_unchanged (a : Actor) (r : RoomState)
    (g h : String) (now : Nat) (hroom : a.roomState = some r) :
    handleCreate a g h now = (a, 400) ∧ routeCreateStatus a g h now = 500 := by
  constructor
  · simp only [handleCreate, hroom]
  · simp only [routeCreateStatus, handleCreate, hroom]
    norm_num

/-- Witness for the amended C7 at a concrete initialized actor. -/
theorem create_conflict_unchanged_witness :
    handleCreate (run [.create "g" "a" 0]) "g2" "b" 5
      = (run [.create "g" "a" 0], 400) ∧
    routeCreateStatus (run [.create "g" "a" 0]) "g2" "b" 5 = 500 :=
  create_conflict_unchanged _ ⟨"g", "a", 0, [⟨"a", 0⟩], [], ""⟩ "g2" "b" 5
    (by decide)

/-! ### C4: host-in-roster invariant, by induction over operation traces -/

theorem hostInRoster_append {r : RoomState} {x : Player}
    (h : hostInRoster r) :
    hostInRoster { r with players := r.players ++ [x] } := by
  show r.hostId ∈ playerIds (r.players ++ [x])
  unfold playerIds at *
  rw [List.map_append]
  exact List.mem_append_left _ h

theorem hostInRoster_states {r : RoomState} {ps : List (String × JsonVal)}
    (h : hostInRoster r) :
    hostInRoster { r with playerStates := ps } := h

theorem hostInRoster_game {r : RoomState} {g : JsonVal}
    (h : hostInRoster r) : hostInRoster { r with gameState := g } := h

theorem hostInRoster_remove {r : RoomState} {p : String}
    (h : hostInRoster r) (hne : r.hostId ≠ p) :
    r.hostId ∈ playerIds (removePlayer r.players p) := by
  obtain ⟨q, hq, hid⟩ := List.mem_map.1 h
  refine List.mem_map.2 ⟨q, List.mem_filter.2 ⟨hq, ?_⟩, hid⟩
  simp [hid, hne]

theorem hasPlayer_mem {ps : List Player} {nh : String}
    (h : hasPlayer ps nh = true) : nh ∈ playerIds ps := by
  obtain ⟨x, hx, hbeq⟩ := List.any_eq_true.1 h
  exact List.mem_map.2 ⟨x, hx, by simpa using hbeq⟩

theorem minJoin_id_mem {ps : List Player} {q : Player}
    (h : minJoin ps = some q) : q.id ∈ playerIds ps :=
  List.mem_map.2 ⟨q, minJoin_mem h, rfl⟩

theorem hostInvariant_create (a : Actor) (g h : String) (now : Nat)
    (hi : hostInvariant a) : hostInvariant (handleCreate a g h now).1 := by
  obtain ⟨hm, hs⟩ := hi
  unfold handleCreate
  split
  · exact ⟨hm, hs⟩
  · constructor <;> intro r hr <;> dsimp at hr <;>
      simp only [Option.some.injEq] at hr <;> subst hr <;>
      simp [hostInRoster, playerIds]

theorem hostInvariant_join (a : Actor) (p : String) (now : Nat)
    (hi : hostInvariant a) : hostInvariant (handleJoin a p now).1 := by
  obtain ⟨hm, hs⟩ := hi
  unfold handleJoin
  split
  · exact ⟨hm, hs⟩
  next r heq =>
    split
    · exact ⟨hm, hs⟩
    · have hr : hostInRoster r := hm r heq
      constructor <;> intro r'' h'' <;> dsimp at h'' <;>
        simp only [Option.some.injEq] at h'' <;> subst h'' <;>
        exact hostInRoster_append hr

theorem hostInvariant_wsOpen (a : Actor) (p : String) (now : Nat)
    (hi : hostInvariant a) : hostInvariant (handleWebSocket a p now).1 := by
  obtain ⟨hm, hs⟩ := hi
  unfold handleWebSocket
  split
  · exact ⟨hm, hs⟩
  next r heq =>
    split
    · exact ⟨hm, hs⟩
    · have hr : hostInRoster r := hm r heq
      dsimp only
      split
      · exact ⟨fun r'' h'' => hm r'' h'', fun r'' h'' => hs r'' h''⟩
      · constructor <;> intro r'' h'' <;> dsimp at h'' <;>
          simp only [Option.some.injEq] at h'' <;> subst h'' <;>
          exact hostInRoster_append hr

theorem hostInvariant_msg (a : Actor) (sid : Nat) (m : ClientMsg) (now : Nat)
    (hi : hostInvariant a) : hostInvariant (webSocketMessage a sid m now).1 := by
  obtain ⟨hm, hs⟩ := hi
  unfold webSocketMessage
  split
  · exact ⟨hm, hs⟩
  next p htag =>
    split
    · exact ⟨hm, hs⟩
    · split
      · exact ⟨hm, hs⟩
      next r heq =>
        have hr : hostInRoster r := hm r heq
        cases m with
        | playerState st =>
          constructor <;> intro r'' h'' <;> dsimp at h''
          · simp only [Option.some.injEq] at h''
            subst h''
            exact hostInRoster_states hr
          · exact hs r'' h''
        | gameStateMsg st =>
          dsimp only
          split
          · constructor <;> intro r'' h'' <;> dsimp at h'' <;>
              simp only [Option.some.injEq] at h'' <;> subst h'' <;>
              exact hostInRoster_game hr
          · exact ⟨hm, hs⟩
        | transferHost nh =>
          dsimp only
          split
          · exact ⟨hm, hs⟩
          · split
            next hcond =>
              constructor <;> intro r'' h'' <;> dsimp at h'' <;>
                simp only [Option.some.injEq] at h'' <;> subst h'' <;>
                exact hasPlayer_mem hcond.2.2
            · exact ⟨hm, hs⟩
        | broadcastReq d e => exact ⟨hm, hs⟩
        | sendReq d x =>
          dsimp only
          split
          · exact ⟨hm, hs⟩
          · split
            · exact ⟨hm, hs⟩
            · exact ⟨hm, hs⟩
        | ping => exact ⟨hm, hs⟩
        | unknown => exact ⟨hm, hs⟩

theorem hostInvariant_close (a : Actor) (sid : Nat)
    (hi : hostInvariant a) : hostInvariant (webSocketClose a sid).1 := by
  obtain ⟨hm, hs⟩ := hi
  unfold webSocketClose
  split
  · exact ⟨hm, hs⟩
  next p htag =>
    split
    · exact ⟨fun r'' h'' => hm r'' h'', fun r'' h'' => hs r'' h''⟩
    · dsimp only
      split
      · exact ⟨fun r'' h'' => hm r'' h'', fun r'' h'' => hs r'' h''⟩
      next r heq =>
        have hr : hostInRoster r := hm r heq
        split
        next hlen0 =>
          constructor <;> intro r'' h'' <;> dsimp at h'' <;>
            exact absurd h'' (by simp)
        next hlen =>
          by_cases hw : p = r.hostId
          · rw [if_pos hw]
            split
            next q hpick =>
              have hq := minJoin_id_mem hpick
              constructor <;> intro r'' h'' <;> dsimp at h'' <;>
                simp only [Option.some.injEq] at h'' <;> subst h'' <;>
                exact hq
            next hpick =>
              have hnil : removePlayer r.players p = [] := minJoin_eq_none hpick
              exact absurd (by simp [hnil]) hlen
          · rw [if_neg hw]
            split
            next q hpick => exact absurd hpick (by simp)
            next hpick =>
              have hmem : r.hostId ∈ playerIds (removePlayer r.players p) :=
                hostInRoster_remove hr (fun hc => hw hc.symm)
              constructor <;> intro r'' h'' <;> dsimp at h'' <;>
                simp only [Option.some.injEq] at h'' <;> subst h'' <;>
                exact hmem

theorem hostInvariant_tick (a : Actor)
    (hi : hostInvariant a) : hostInvariant (tickBroadcast a).1 := by
  obtain ⟨hm, hs⟩ := hi
  unfold tickBroadcast
  split
  · split
    · split
      · exact ⟨fun r'' h'' => hm r'' h'', fun r'' h'' => hs r'' h''⟩
      · exact ⟨hm, hs⟩
    · exact ⟨hm, hs⟩
  · exact ⟨hm, hs⟩

theorem hostInvariant_boot (a : Actor)
    (hi : hostInvariant a) : hostInvariant (bootActor a) := by
  obtain ⟨hm, hs⟩ := hi
  exact ⟨fun r hr => hs r hr, fun r hr => hs r hr⟩

theorem hostInvariant_applyOp (a : Actor) (o : Op)
    (hi : hostInvariant a) : hostInvariant (applyOp a o) := by
  cases o with
  | create g h now => exact hostInvariant_create a g h now hi
  | join p now => exact hostInvariant_join a p now hi
  | wsOpen p now => exact hostInvariant_wsOpen a p now hi
  | msg sid m now => exact hostInvariant_msg a sid m now hi
  | close sid => exact hostInvariant_close a sid hi
  | tick => exact hostInvariant_tick a hi
  | boot => exact hostInvariant_boot a hi

theorem hostInvariant_foldl : ∀ (ops : List Op) (a : Actor),
    hostInvariant a → hostInvariant (ops.foldl applyOp a) := by
  intro ops
  induction ops with
  | nil => intro a hi; exact hi
  | cons o rest ih => intro a hi; exact ih _ (hostInvariant_applyOp a o hi)

theorem hostInvariant_run (ops : List Op) : hostInvariant (run ops) := by
  refine hostInvariant_foldl ops initActor ⟨?_, ?_⟩ <;>
    intro r hr <;> simp [initActor] at hr

/-- C4: in every actor state reachable by any trace of create, join,
WebSocket admission, client messages (including `transfer_host`), session
closes, ticks and reboots, the host of a live room with a non-empty roster
is a roster member. -/
theorem host_in_roster_reachable (ops : List Op) (r : RoomState)
    (hr : (run ops).roomState = some r) (hne : r.players ≠ []) :
    r.hostId ∈ playerIds r.players :=
  (hostInvariant_run ops).1 r hr

/-- Witness for C4: after create + join + host transfer, the live room's
host is in the roster. -/
theorem host_in_roster_reachable_witness :
    ("z" : String) ∈ playerIds [⟨"a", 0⟩, ⟨"z", 1⟩] :=
  host_in_roster_reachable
    [.create "g" "a" 0, .wsOpen "a" 0, .wsOpen "z" 1,
     .msg 0 (.transferHost (some "z")) 2]
    ⟨"g", "z", 0, [⟨"a", 0⟩, ⟨"z", 1⟩], [], ""⟩ (by decide) (by decide)

/-! ### C5: what the stored snapshot preserves across hibernation -/

theorem snapAgrees_create (a : Actor) (g h : String) (now : Nat)
    (hi : snapAgrees a) : snapAgrees (handleCreate a g h now).1 := by
  unfold handleCreate
  split
  · exact hi
  · intro r hr
    dsimp at hr
    simp only [Option.some.injEq] at hr
    subst hr
    exact ⟨_, rfl, rfl, rfl, rfl, rfl, rfl⟩

theorem snapAgrees_join (a : Actor) (p : String) (now : Nat)
    (hi : snapAgrees a) : snapAgrees (handleJoin a p now).1 := by
  unfold handleJoin
  split
  · exact hi
  next r heq =>
    split
    · exact hi
    · intro r'' h''
      dsimp at h''
      simp only [Option.some.injEq] at h''
      subst h''
      exact ⟨_, rfl, rfl, rfl, rfl, rfl, rfl⟩

theorem snapAgrees_wsOpen (a : Actor) (p : String) (now : Nat)
    (hi : snapAgrees a) : snapAgrees (handleWebSocket a p now).1 := by
  unfold handleWebSocket
  split
  · exact hi
  next r heq =>
    split
    · exact hi
    · dsimp only
      split
      · exact fun r'' h'' => hi r'' h''
      · intro r'' h''
        dsimp at h''
        simp only [Option.some.injEq] at h''
        subst h''
        exact ⟨_, rfl, rfl, rfl, rfl, rfl, rfl⟩

theorem snapAgrees_msg (a : Actor) (sid : Nat) (m : ClientMsg) (now : Nat)
    (hi : snapAgrees a) : snapAgrees (webSocketMessage a sid m now).1 := by
  unfold webSocketMessage
  split
  · exact hi
  next p htag =>
    split
    · exact hi
    · split
      · exact hi
      next r heq =>
        cases m with
        | playerState st =>
          intro r'' h''
          dsimp at h''
          simp only [Option.some.injEq] at h''
          subst h''
          obtain ⟨s, hsto, h1, h2, h3, h4, h5⟩ := hi r heq
          exact ⟨s, hsto, h1, h2, h3, h4, h5⟩
        | gameStateMsg st =>
          dsimp only
          split
          · intro r'' h''
            dsimp at h''
            simp only [Option.some.injEq] at h''
            subst h''
            exact ⟨_, rfl, rfl, rfl, rfl, rfl, rfl⟩
          · exact hi
        | transferHost nh =>
          dsimp only
          split
          · exact hi
          · split
            · intro r'' h''
              dsimp at h''
              simp only [Option.some.injEq] at h''
              subst h''
              exact ⟨_, rfl, rfl, rfl, rfl, rfl, rfl⟩
            · exact hi
        | broadcastReq d e => exact hi
        | sendReq d x =>
          dsimp only
          split
          · exact hi
          · split
            · exact hi
            · exact hi
        | ping => exact hi
        | unknown => exact hi

theorem snapAgrees_close (a : Actor) (sid : Nat)
    (hi : snapAgrees a) : snapAgrees (webSocketClose a sid).1 := by
  unfold webSocketClose
  split
  · exact hi
  next p htag =>
    split
    · exact fun r'' h'' => hi r'' h''
    · dsimp only
      split
      · exact fun r'' h'' => hi r'' h''
      next r heq =>
        split
        next hlen0 =>
          intro r'' h''
          dsimp at h''
          exact absurd h'' (by simp)
        next hlen =>
          split
          · intro r'' h''
            dsimp at h''
            simp only [Option.some.injEq] at h''
            subst h''
            exact ⟨_, rfl, rfl, rfl, rfl, rfl, rfl⟩
          · intro r'' h''
            dsimp at h''
            simp only [Option.some.injEq] at h''
            subst h''
            exact ⟨_, rfl, rfl, rfl, rfl, rfl, rfl⟩

theorem snapAgrees_tick (a : Actor)
    (hi : snapAgrees a) : snapAgrees (tickBroadcast a).1 := by
  unfold tickBroadcast
  split
  · split
    · split
      · exact fun r'' h'' => hi r'' h''
      · exact hi
    · exact hi
  · exact hi

theorem snapAgrees_boot (a : Actor) : snapAgrees (bootActor a) := by
  intro r hr
  exact ⟨r, hr, rfl, rfl, rfl, rfl, rfl⟩

theorem snapAgrees_applyOp (a : Actor) (o : Op)
    (hi : snapAgrees a) : snapAgrees (applyOp a o) := by
  cases o with
  | create g h now => exact snapAgrees_create a g h now hi
  | join p now => exact snapAgrees_join a p now hi
  | wsOpen p now => exact snapAgrees_wsOpen a p now hi
  | msg sid m now => exact snapAgrees_msg a sid m now hi
  | close sid => exact snapAgrees_close a sid hi
  | tick => exact snapAgrees_tick a hi
  | boot => exact snapAgrees_boot a

theorem snapAgrees_foldl : ∀ (ops : List Op) (a : Actor),
    snapAgrees a → snapAgrees (ops.foldl applyOp a) := by
  intro ops
  induction ops with
  | nil => intro a hi; exact hi
  | cons o rest ih => intro a hi; exact ih _ (snapAgrees_applyOp a o hi)

theorem snapAgrees_run (ops : List Op) : snapAgrees (run ops) :=
  snapAgrees_foldl ops initActor (fun r hr => by simp [initActor] at hr)

/-- C5 counterexample: the claim says a hibernate / cold-boot round trip
restores `playerStates` identically.  After `player_state` (which does not
persist), the live room holds `[("a", "s1")]` but the reboot restores `[]`. -/
theorem snapshot_round_trip_cx :
    ((run [.create "g" "a" 0, .wsOpen "a" 1,
           .msg 0 (.playerState "s1") 2]).roomState.map (·.playerStates))
      = some [("a", "s1")] ∧
    ((run [.create "g" "a" 0, .wsOpen "a" 1, .msg 0 (.playerState "s1") 2,
           .boot]).roomState.map (·.playerStates))
      = some [] := by decide

/-- C5 (amended): for every reachable state with a live room, hibernating
and cold-booting from the stored snapshot yields a room with identical
roster, `hostId` and `gameState`; `playerStates` reverts to its value at the
last persisting operation (un-persisted `player_state` updates are lost). -/
theorem snapshot_round_trip_core (ops : List Op) (r : RoomState)
    (hr : (run ops).roomState = some r) :
    ∃ s : RoomState, (applyOp (run ops) .boot).roomState = some s ∧
      s.players = r.players ∧ s.hostId = r.hostId ∧ s.gameState = r.gameState := by
  obtain ⟨s, hsto, _, h2, _, h4, h5⟩ := snapAgrees_run ops r hr
  exact ⟨s, hsto, h4, h2, h5⟩

/-- Witness for the amended C5 at the counterexample trace: the reboot
restores the roster, host and game state of the live room. -/
theorem snapshot_round_trip_core_witness :
    ∃ s : RoomState,
      (applyOp (run [.create "g" "a" 0, .wsOpen "a" 1,
          .msg 0 (.playerState "s1") 2]) .boot).roomState = some s ∧
      s.players = [⟨"a", 0⟩] ∧ s.hostId = "a" ∧ s.gameState = "" :=
  snapshot_round_trip_core
    [.create "g" "a" 0, .wsOpen "a" 1, .msg 0 (.playerState "s1") 2]
    ⟨"g", "a", 0, [⟨"a", 0⟩], [("a", "s1")], ""⟩ (by decide)

/-! ### C8: the Auth Gate's check order -/

/-- C8: the middleware checks in this order and returns the first failure:
missing `playerId` → 400 (whatever the key inputs are); then a missing
(untruthy) apiKey → 401; then a key without the `wt_` prefix → 401; then a
key absent from the registry → 401; on success it binds the registry's
`gameId` and `projectId`, the extracted `playerId`, and the key. -/
theorem auth_gate_order (reg : String → Option ApiKeyData) (req : AuthReq) :
    (jsTruthy (extractPid req) = false →
      authMiddleware reg req = .errResp 400 "X-Player-ID header required") ∧
    (jsTruthy (extractPid req) = true → jsTruthy (extractKey req) = false →
      authMiddleware reg req
        = .errResp 401 "Authorization header or apiKey query param required") ∧
    (∀ k, jsTruthy (extractPid req) = true → extractKey req = some k →
      k ≠ "" → strStartsWith k "wt_" = false →
      authMiddleware reg req = .errResp 401 "Invalid API key format") ∧
    (∀ k, jsTruthy (extractPid req) = true → extractKey req = some k →
      k ≠ "" → strStartsWith k "wt_" = true → reg k = none →
      authMiddleware reg req = .errResp 401 "Invalid API key") ∧
    (∀ k d, jsTruthy (extractPid req) = true → extractKey req = some k →
      k ≠ "" → strStartsWith k "wt_" = true → reg k = some d →
      authMiddleware reg req
        = .okResp d.gameId d.projectId ((extractPid req).getD "") k) := by
  refine ⟨?_, ?_, ?_, ?_, ?_⟩
  · intro h1
    simp [authMiddleware, h1]
  · intro h1 h2
    simp [authMiddleware, h1, h2]
  · intro k h1 hk hne hpre
    have hkt : jsTruthy (some k) = true := by simp [jsTruthy, hne]
    simp [authMiddleware, h1, hkt, hk, hpre]
  · intro k h1 hk hne hpre hreg
    have hkt : jsTruthy (some k) = true := by simp [jsTruthy, hne]
    simp [authMiddleware, h1, hkt, hk, hpre, hreg]
  · intro k d h1 hk hne hpre hreg
    have hkt : jsTruthy (some k) = true := by simp [jsTruthy, hne]
    simp [authMiddleware, h1, hkt, hk, hpre, hreg]

/-- Witness for C8: all five branches exercised at concrete requests against
a one-key registry. -/
theorem auth_gate_order_witness :
    (authMiddleware
        (fun k => if k = "wt_good" then some ⟨"g1", "p1", 7⟩ else none)
        ⟨some "Bearer wt_good", none, none, none⟩
      = .errResp 400 "X-Player-ID header required") ∧
    (authMiddleware
        (fun k => if k = "wt_good" then some ⟨"g1", "p1", 7⟩ else none)
        ⟨none, none, some "p", none⟩
      = .errResp 401 "Authorization header or apiKey query param required") ∧
    (authMiddleware
        (fun k => if k = "wt_good" then some ⟨"g1", "p1", 7⟩ else none)
        ⟨some "Bearer xx_bad", none, some "p", none⟩
      = .errResp 401 "Invalid API key format") ∧
    (authMiddleware
        (fun k => if k = "wt_good" then some ⟨"g1", "p1", 7⟩ else none)
        ⟨some "Bearer wt_unknown", none, some "p", none⟩
      = .errResp 401 "Invalid API key") ∧
    (authMiddleware
        (fun k => if k = "wt_good" then some ⟨"g1", "p1", 7⟩ else none)
        ⟨some "Bearer wt_good", none, none, some "p"⟩
      = .okResp "g1" "p1" "p" "wt_good") :=
  ⟨(auth_gate_order _ _).1 (by decide),
   (auth_gate_order _ _).2.1 (by decide) (by decide),
   (auth_gate_order _ _).2.2.1 "xx_bad" (by decide) (by decide) (by decide)
     (by decide),
   (auth_gate_order _ _).2.2.2.1 "wt_unknown" (by decide) (by decide)
     (by decide) (by decide) (by decide),
   (auth_gate_order _ _).2.2.2.2 "wt_good" ⟨"g1", "p1", 7⟩ (by decide)
     (by decide) (by decide) (by decide) (by decide)⟩

/-! ### C9 / C10: the stats accumulator -/

theorem trackEvent_online (st : StatsStore) (pid ev : String) (t : TrackTime) :
    onlineOf (trackEvent st pid ev t).1 =
      if ev == "session_start" then onlineOf st + 1
      else if ev == "session_end" then max 0 (onlineOf st - 1)
      else onlineOf st := by
  unfold trackEvent onlineOf
  dsimp only
  split_ifs <;> rfl

theorem trackEvent_online_nonneg (st : StatsStore) (pid ev : String)
    (t : TrackTime) (h : 0 ≤ onlineOf st) :
    0 ≤ onlineOf (trackEvent st pid ev t).1 := by
  rw [trackEvent_online]
  split_ifs
  · omega
  · exact le_max_left 0 _
  · exact h

theorem runTrack_online_nonneg : ∀ (evs : List TrackEv) (st : StatsStore),
    0 ≤ onlineOf st → ∀ n : Nat, 0 ≤ onlineOf (runTrack st (evs.take n)) := by
  intro evs
  induction evs with
  | nil =>
    intro st h n
    simpa [runTrack] using h
  | cons e rest ih =>
    intro st h n
    cases n with
    | zero => simpa [runTrack] using h
    | succ n =>
      rw [List.take_succ_cons]
      exact ih _ (trackEvent_online_nonneg st e.playerId e.event e.time h) n

theorem countStarts_cons_start {e : TrackEv} (l : List TrackEv)
    (h : e.event = "session_start") :
    countStarts (e :: l) = countStarts l + 1 := by
  simp [countStarts, h]

theorem countStarts_cons_end {e : TrackEv} (l : List TrackEv)
    (h : e.event = "session_end") :
    countStarts (e :: l) = countStarts l := by
  simp [countStarts, h]

theorem countEnds_cons_start {e : TrackEv} (l : List TrackEv)
    (h : e.event = "session_start") :
    countEnds (e :: l) = countEnds l := by
  simp [countEnds, h]

theorem countEnds_cons_end {e : TrackEv} (l : List TrackEv)
    (h : e.event = "session_end") :
    countEnds (e :: l) = countEnds l + 1 := by
  simp [countEnds, h]

theorem runTrack_online_paired : ∀ (evs : List TrackEv) (st : StatsStore),
    (∀ e ∈ evs, e.event = "session_start" ∨ e.event = "session_end") →
    (∀ n : Nat, countEnds (evs.take n)
      ≤ onlineOf st + countStarts (evs.take n)) →
    onlineOf (runTrack st evs) = onlineOf st + countStarts evs - countEnds evs := by
  intro evs
  induction evs with
  | nil =>
    intro st hall hpre
    simp [runTrack, countStarts, countEnds]
  | cons e rest ih =>
    intro st hall hpre
    have hall2 : ∀ x ∈ rest, x.event = "session_start" ∨ x.event = "session_end" :=
      fun x hx => hall x (List.mem_cons_of_mem e hx)
    have hrunc : runTrack st (e :: rest)
        = runTrack (trackEvent st e.playerId e.event e.time).1 rest := rfl
    rcases hall e (List.mem_cons_self e rest) with hstart | hend
    · have hstep : onlineOf (trackEvent st e.playerId e.event e.time).1
          = onlineOf st + 1 := by
        rw [trackEvent_online, hstart]
        simp
      have hpre2 : ∀ n : Nat, countEnds (rest.take n)
          ≤ onlineOf (trackEvent st e.playerId e.event e.time).1
            + countStarts (rest.take n) := by
        intro n
        have h := hpre (n + 1)
        rw [List.take_succ_cons, countEnds_cons_start _ hstart,
          countStarts_cons_start _ hstart] at h
        rw [hstep]
        omega
      rw [hrunc, ih _ hall2 hpre2, hstep, countStarts_cons_start _ hstart,
        countEnds_cons_start _ hstart]
      omega
    · have hone : 1 ≤ onlineOf st := by
        have h := hpre 1
        rw [show (e :: rest).take 1 = [e] from rfl,
          show countEnds [e] = 1 from by simp [countEnds, hend],
          show countStarts [e] = 0 from by simp [countStarts, hend]] at h
        omega
      have hstep : onlineOf (trackEvent st e.playerId e.event e.time).1
          = onlineOf st - 1 := by
        rw [trackEvent_online, hend]
        simp
        omega
      have hpre2 : ∀ n : Nat, countEnds (rest.take n)
          ≤ onlineOf (trackEvent st e.playerId e.event e.time).1
            + countStarts (rest.take n) := by
        intro n
        have h := hpre (n + 1)
        rw [List.take_succ_cons, countEnds_cons_end _ hend,
          countStarts_cons_end _ hend] at h
        rw [hstep]
        omega
      rw [hrunc, ih _ hall2 hpre2, hstep, countStarts_cons_end _ hend,
        countEnds_cons_end _ hend]
      omega

/-- C9: processing any sequence of `session_start` / `session_end` events
sequentially from a fresh per-game stats record, the `online` counter never
goes below 0 at any prefix (the `session_end` case clamps at 0), and when
every prefix has at least as many starts as ends (well-paired events), the
final `online` equals the number of unmatched starts. -/
theorem online_clamped_and_wellpaired (evs : List TrackEv) :
    (∀ n : Nat, 0 ≤ onlineOf (runTrack emptyStore (evs.take n))) ∧
    ((∀ e ∈ evs, e.event = "session_start" ∨ e.event = "session_end") →
     (∀ n : Nat, n ≤ evs.length →
        countEnds (evs.take n) ≤ countStarts (evs.take n)) →
     onlineOf (runTrack emptyStore evs) = countStarts evs - countEnds evs) := by
  have h0 : onlineOf emptyStore = 0 := rfl
  constructor
  · intro n
    exact runTrack_online_nonneg evs emptyStore (by rw [h0]) n
  · intro hall hpre
    have hpre2 : ∀ n : Nat, countEnds (evs.take n)
        ≤ onlineOf emptyStore + countStarts (evs.take n) := by
      intro n
      rw [h0]
      by_cases hn : n ≤ evs.length
      · have := hpre n hn
        omega
      · rw [List.take_of_length_le (le_of_not_le hn)]
        have := hpre evs.length le_rfl
        rw [List.take_length evs] at this
        omega
    have := runTrack_online_paired evs emptyStore hall hpre2
    rw [this, h0]
    omega

/-- Witness for C9 at a concrete well-paired trace: two starts and one end
leave `online = 1`, and every prefix stays ≥ 0. -/
theorem online_clamped_and_wellpaired_witness :
    (0 ≤ onlineOf (runTrack emptyStore
      ([⟨"d", "session_start", ⟨"2026-10-12", "2026-10", "t", 9⟩⟩,
        ⟨"e", "session_start", ⟨"2026-10-12", "2026-10", "t", 9⟩⟩,
        ⟨"d", "session_end", ⟨"2026-10-12", "2026-10", "t", 9⟩⟩].take 2))) ∧
    onlineOf (runTrack emptyStore
      [⟨"d", "session_start", ⟨"2026-10-12", "2026-10", "t", 9⟩⟩,
       ⟨"e", "session_start", ⟨"2026-10-12", "2026-10", "t", 9⟩⟩,
       ⟨"d", "session_end", ⟨"2026-10-12", "2026-10", "t", 9⟩⟩])
      = countStarts
          [⟨"d", "session_start", ⟨"2026-10-12", "2026-10", "t", 9⟩⟩,
           ⟨"e", "session_start", ⟨"2026-10-12", "2026-10", "t", 9⟩⟩,
           ⟨"d", "session_end", ⟨"2026-10-12", "2026-10", "t", 9⟩⟩]
        - countEnds
          [⟨"d", "session_start", ⟨"2026-10-12", "2026-10", "t", 9⟩⟩,
           ⟨"e", "session_start", ⟨"2026-10-12", "2026-10", "t", 9⟩⟩,
           ⟨"d", "session_end", ⟨"2026-10-12", "2026-10", "t", 9⟩⟩] :=
  ⟨(online_clamped_and_wellpaired _).1 2,
   (online_clamped_and_wellpaired _).2 (by decide) (by decide)⟩

/-- C10: a `/track` request whose `event` matches no switch case still
succeeds, changes no counter, no unique-player set and no per-player record,
but rewrites the per-game stats record with a fresh `updatedAt` stamp. -/
theorem unknown_event_updates_timestamp_only (st : StatsStore)
    (pid ev : String) (t : TrackTime)
    (hev : ev ∉ (["session_start", "session_end", "room_join", "room_leave",
                  "room_create", "room_close"] : List String)) :
    (trackEvent st pid ev t).2 = true ∧
    (trackEvent st pid ev t).1.daily = st.daily ∧
    (trackEvent st pid ev t).1.monthly = st.monthly ∧
    (trackEvent st pid ev t).1.playerRecs = st.playerRecs ∧
    (trackEvent st pid ev t).1.statsRec
      = some { st.statsRec.getD defaultStats with updatedAt := t.nowMs } := by
  have h1 : ¬ ev = "session_start" := fun h => hev (by simp [h])
  have h2 : ¬ ev = "session_end" := fun h => hev (by simp [h])
  have h3 : ¬ ev = "room_join" := fun h => hev (by simp [h])
  have h4 : ¬ ev = "room_leave" := fun h => hev (by simp [h])
  have h5 : ¬ ev = "room_create" := fun h => hev (by simp [h])
  have h6 : ¬ ev = "room_close" := fun h => hev (by simp [h])
  refine ⟨rfl, ?_, ?_, ?_, ?_⟩ <;>
    simp [trackEvent, h1, h2, h3, h4, h5, h6]

/-- Witness for C10: event "foo" on a fresh store only stamps `updatedAt`. -/
theorem unknown_event_updates_timestamp_only_witness :
    (trackEvent emptyStore "p" "foo" ⟨"2026-10-12", "2026-10", "t", 9⟩).2
      = true ∧
    (trackEvent emptyStore "p" "foo"
        ⟨"2026-10-12", "2026-10", "t", 9⟩).1.daily = emptyStore.daily ∧
    (trackEvent emptyStore "p" "foo"
        ⟨"2026-10-12", "2026-10", "t", 9⟩).1.monthly = emptyStore.monthly ∧
    (trackEvent emptyStore "p" "foo"
        ⟨"2026-10-12", "2026-10", "t", 9⟩).1.playerRecs
      = emptyStore.playerRecs ∧
    (trackEvent emptyStore "p" "foo"
        ⟨"2026-10-12", "2026-10", "t", 9⟩).1.statsRec
      = some { emptyStore.statsRec.getD defaultStats with updatedAt := 9 } :=
  unknown_event_updates_timestamp_only emptyStore "p" "foo"
    ⟨"2026-10-12", "2026-10", "t", 9⟩ (by decide)

end Watchtower
